import Mathlib

/-!
Verification of the FortiMeet backend (`src/main.py`): a meeting-invitation
service with three mutating endpoints — create a meeting, join it via an
invite code, and end (delete) it.  The document store (`database.py`,
`schemas.py`) is not part of the sources; its thin generic accessors are
modelled from the specification, while every business rule is translated
directly from `main.py`.

Time is modelled as `Int` (minutes since an arbitrary epoch); the current
time `now` is passed explicitly wherever the source calls
`datetime.now(timezone.utc)`.  The store is a list of meeting documents in
insertion order; MongoDB's `find`/`update_one`/`delete_one` act on the first
matching document.
-/

/-- A meeting document, after `schemas.Meeting` and the fields written by
`main.py`.  `expires_at` is optional: a stored document may lack the field or
hold `None`, which the source's truthiness test (`meeting.get("expires_at")
and ...`) treats as "no expiry". -/
structure Meeting where
  id : Nat
  title : Option String
  host_email : String
  invite_code : String
  expires_at : Option Int
  status : String
  participants : List String
  created_at : Int
  updated_at : Int
deriving Repr, DecidableEq

/-- Response body of `POST /api/meetings` (`main.py` line 73): exactly the
fields `id`, `invite_code`, `expires_at`. -/
structure CreateResponse where
  id : Nat
  invite_code : String
  expires_at : Int
deriving Repr, DecidableEq

/-- Modelled from the spec: `get_documents("meeting", \x7b"invite_code": code\x7d,
limit=1)` from `database.py` (not in the sources) — "generic
create/query/update/delete by collection name and filter".  With limit 1 the
result is the first stored document whose `invite_code` matches, or none. -/
def get_document (store : List Meeting) (code : String) : Option Meeting :=
  store.find? (fun m => m.invite_code == code)

/-- Modelled from the spec: `db["meeting"].update_one(\x7b"_id": i\x7d, ...)` —
the store "provides atomicity per single-document update"; it rewrites the
first document whose `_id` matches, leaving the rest untouched. -/
def update_one (store : List Meeting) (i : Nat) (f : Meeting → Meeting) : List Meeting :=
  match store with
  | [] => []
  | m :: rest => if m.id = i then f m :: rest else m :: update_one rest i f

/-- Modelled from the spec: `db["meeting"].delete_one(\x7b"_id": i\x7d)` —
removes the first document whose `_id` matches. -/
def delete_one (store : List Meeting) (i : Nat) : List Meeting :=
  match store with
  | [] => []
  | m :: rest => if m.id = i then rest else m :: delete_one rest i

/-- `main.py` lines 87–88: `participants = set(meeting.get("participants", []));
participants.add(str(payload.email))`.  Python's set iteration order is
unspecified, so the resulting list is represented canonically as the
deduplication of `email :: participants`; it has the same members. -/
def addParticipant (participants : List String) (email : String) : List String :=
  (email :: participants).dedup

/-- `main.py` line 84: `meeting.get("expires_at") and meeting["expires_at"] <
datetime.now(timezone.utc)` — a missing/`None` expiry is falsy and short-circuits
the check; otherwise the invite is expired iff `expires_at` is strictly in the
past. -/
def expired : Option Int → Int → Bool
  | none, _ => false
  | some t, now => t < now

/-- `POST /api/meetings` (`main.py` lines 59–73).  The fresh ObjectId invite
code and the store-assigned document id are parameters (`newCode`, `newId`);
`expires_at = now + ttl_minutes`; status `active`, empty participant list.
`created_at`/`updated_at` default to the creation time (spec §3; `schemas.py`
is not in the sources).  Returns the updated store and the response body. -/
def create_meeting (store : List Meeting) (host_email : String) (title : Option String)
    (ttl_minutes : Int) (now : Int) (newId : Nat) (newCode : String) :
    List Meeting × CreateResponse :=
  let expires_at := now + ttl_minutes
  let data : Meeting :=
    { id := newId, title := title, host_email := host_email, invite_code := newCode,
      expires_at := some expires_at, status := "active", participants := [],
      created_at := now, updated_at := now }
  (store ++ [data], { id := newId, invite_code := newCode, expires_at := expires_at })

/-- `POST /api/meetings/join` (`main.py` lines 75–90).  Looks up the meeting by
invite code; 404 if absent, 400 if its status is not `active`, 410 if expired;
otherwise writes the participant set union and `updated_at`, and returns the
updated store with the meeting id. -/
def join_meeting (store : List Meeting) (email invite_code : String) (now : Int) :
    Except (Nat × String) (List Meeting × Nat) :=
  match get_document store invite_code with
  | none => .error (404, "Invite not found")
  | some meeting =>
    if meeting.status ≠ "active" then .error (400, "Meeting not active")
    else if expired meeting.expires_at now then .error (410, "Invite expired")
    else
      let participants := addParticipant meeting.participants email
      .ok (update_one store meeting.id
            (fun m => { m with participants := participants, updated_at := now }),
          meeting.id)

/-- `POST /api/meetings/end` (`main.py` lines 92–101).  Looks up the meeting by
invite code; 404 if absent (the exception is raised before any write);
otherwise sets `status := "ended"` and `updated_at`, then deletes the document
outright. -/
def end_meeting (store : List Meeting) (invite_code : String) (now : Int) :
    Except (Nat × String) (List Meeting) :=
  match get_document store invite_code with
  | none => .error (404, "Meeting not found")
  | some meeting =>
    let s1 := update_one store meeting.id
      (fun m => { m with status := "ended", updated_at := now })
    .ok (delete_one s1 meeting.id)

/-- Store well-formedness guaranteed by the database and the spec's data-model
invariants: `_id` is unique per collection, and invite codes are unique
(spec §3: "invite_code is unique across active meetings"). -/
def StoreWF (store : List Meeting) : Prop :=
  (store.map Meeting.id).Nodup ∧ (store.map Meeting.invite_code).Nodup

instance : DecidablePred StoreWF := fun _ =>
  inferInstanceAs (Decidable (_ ∧ _))

/-- A successful join decomposes as: a meeting was found by the invite code,
it was active and unexpired, and the store was updated at its id. -/
theorem join_ok_shape (store s' : List Meeting) (email code : String) (now : Int)
    (i : Nat) (h : join_meeting store email code now = .ok (s', i)) :
    ∃ m : Meeting, get_document store code = some m ∧ m.status = "active" ∧
      expired m.expires_at now = false ∧ i = m.id ∧
      s' = update_one store m.id
        (fun x => { x with participants := addParticipant m.participants email,
                           updated_at := now }) := by
  unfold join_meeting at h
  cases hfind : get_document store code with
  | none => rw [hfind] at h; exact absurd h (by simp)
  | some m =>
    rw [hfind] at h
    by_cases hst : m.status = "active"
    · simp only [hst, ne_eq, not_true_eq_false, if_false] at h
      cases hexp : expired m.expires_at now with
      | true => rw [hexp] at h; simp at h
      | false =>
        rw [hexp] at h
        simp only [Bool.false_eq_true, if_false, Except.ok.injEq, Prod.mk.injEq] at h
        exact ⟨m, rfl, hst, hexp, h.2.symm, h.1.symm⟩
    · simp [hst] at h

/-- A successful end decomposes as: a meeting was found by the invite code,
its status was set to `ended`, and the document was then deleted. -/
theorem end_ok_shape (store s' : List Meeting) (code : String) (now : Int)
    (h : end_meeting store code now = .ok s') :
    ∃ m : Meeting, get_document store code = some m ∧
      s' = delete_one
        (update_one store m.id (fun x => { x with status := "ended", updated_at := now }))
        m.id := by
  unfold end_meeting at h
  cases hfind : get_document store code with
  | none => rw [hfind] at h; exact absurd h (by simp)
  | some m =>
    rw [hfind] at h
    simp only [Except.ok.injEq] at h
    exact ⟨m, rfl, h.symm⟩

/-- If no stored document carries the invite code, the lookup fails. -/
theorem get_document_eq_none (store : List Meeting) (code : String)
    (h : ∀ m ∈ store, m.invite_code ≠ code) : get_document store code = none := by
  unfold get_document
  rw [List.find?_eq_none]
  intro m hm
  simpa using h m hm

/-- Updating the document found by an invite code with a code-preserving
rewrite leaves it the document that the same lookup finds (unique `_id`s). -/
theorem get_document_update_one (code : String) (f : Meeting → Meeting)
    (hcode : ∀ x, (f x).invite_code = x.invite_code) :
    ∀ (store : List Meeting) (m : Meeting), (store.map Meeting.id).Nodup →
      get_document store code = some m →
      get_document (update_one store m.id f) code = some (f m) := by
  intro store
  induction store with
  | nil => intro m _ hfind; simp [get_document] at hfind
  | cons a rest ih =>
    intro m hids hfind
    rw [List.map_cons, List.nodup_cons] at hids
    by_cases ha : a.invite_code = code
    · have hm : a = m := by
        unfold get_document at hfind
        rw [List.find?_cons_of_pos _ (by simpa using ha)] at hfind
        exact Option.some.inj hfind
      subst hm
      simp only [update_one, if_pos rfl, get_document]
      exact List.find?_cons_of_pos _ (by simpa using (hcode a).trans ha)
    · have hfind' : get_document rest code = some m := by
        unfold get_document at hfind ⊢
        rwa [List.find?_cons_of_neg _ (by simpa using ha)] at hfind
      have hmem : m ∈ rest := List.mem_of_find?_eq_some hfind'
      have hne : ¬a.id = m.id := fun he =>
        hids.1 (he ▸ List.mem_map.mpr ⟨m, hmem, rfl⟩)
      simp only [update_one, if_neg hne, get_document]
      rw [List.find?_cons_of_neg _ (by simpa using ha)]
      exact ih m hids.2 hfind'

/-- An id-preserving update leaves the list of `_id`s unchanged. -/
theorem map_id_update_one (i : Nat) (f : Meeting → Meeting)
    (hid : ∀ x, (f x).id = x.id) (store : List Meeting) :
    (update_one store i f).map Meeting.id = store.map Meeting.id := by
  induction store with
  | nil => rfl
  | cons a rest ih =>
    by_cases h : a.id = i
    · simp [update_one, h, hid]
    · simp [update_one, h, ih]

/-- The participant-set union contains the added email exactly once. -/
theorem addParticipant_count (ps : List String) (e : String) :
    (addParticipant ps e).count e = 1 :=
  List.count_eq_one_of_mem (List.nodup_dedup _)
    (List.mem_dedup.mpr (List.mem_cons_self e ps))

/-- Every member of an updated store is an old member or the rewrite of one. -/
theorem mem_update_one (store : List Meeting) (i : Nat) (f : Meeting → Meeting)
    (x : Meeting) (hx : x ∈ update_one store i f) :
    x ∈ store ∨ ∃ y ∈ store, x = f y := by
  induction store with
  | nil => simp [update_one] at hx
  | cons a rest ih =>
    by_cases h : a.id = i
    · simp only [update_one, if_pos h, List.mem_cons] at hx
      rcases hx with hx | hx
      · exact Or.inr ⟨a, List.mem_cons_self a rest, hx⟩
      · exact Or.inl (List.mem_cons_of_mem a hx)
    · simp only [update_one, if_neg h, List.mem_cons] at hx
      rcases hx with hx | hx
      · exact Or.inl (hx ▸ List.mem_cons_self a rest)
      · rcases ih hx with h1 | ⟨y, hy, hxy⟩
        · exact Or.inl (List.mem_cons_of_mem a h1)
        · exact Or.inr ⟨y, List.mem_cons_of_mem a hy, hxy⟩

/-- Every member of the store after a deletion was a member before. -/
theorem mem_delete_one (store : List Meeting) (i : Nat) (x : Meeting)
    (hx : x ∈ delete_one store i) : x ∈ store := by
  induction store with
  | nil => simp [delete_one] at hx
  | cons a rest ih =>
    by_cases h : a.id = i
    · simp only [delete_one, if_pos h] at hx
      exact List.mem_cons_of_mem a hx
    · simp only [delete_one, if_neg h, List.mem_cons] at hx
      rcases hx with hx | hx
      · exact hx ▸ List.mem_cons_self a rest
      · exact List.mem_cons_of_mem a (ih hx)

/-- After rewriting the document an invite code finds with an id-preserving
update and then deleting it by `_id`, no remaining document carries that code
(unique `_id`s and unique invite codes). -/
theorem end_removes_code (code : String) (f : Meeting → Meeting)
    (hid : ∀ x, (f x).id = x.id) :
    ∀ (store : List Meeting) (m : Meeting), StoreWF store →
      get_document store code = some m →
      ∀ x ∈ delete_one (update_one store m.id f) m.id, x.invite_code ≠ code := by
  intro store
  induction store with
  | nil => intro m _ hfind; simp [get_document] at hfind
  | cons a rest ih =>
    intro m hwf hfind x hx
    obtain ⟨hids, hcodes⟩ := hwf
    rw [List.map_cons, List.nodup_cons] at hids hcodes
    by_cases ha : a.invite_code = code
    · have hm : a = m := by
        unfold get_document at hfind
        rw [List.find?_cons_of_pos _ (by simpa using ha)] at hfind
        exact Option.some.inj hfind
      subst hm
      simp only [update_one, if_pos rfl, delete_one, hid a, if_pos rfl] at hx
      intro hxc
      exact hcodes.1 (hxc.trans ha.symm ▸ List.mem_map.mpr ⟨x, hx, rfl⟩)
    · have hfind' : get_document rest code = some m := by
        unfold get_document at hfind ⊢
        rwa [List.find?_cons_of_neg _ (by simpa using ha)] at hfind
      have hmem : m ∈ rest := List.mem_of_find?_eq_some hfind'
      have hne : ¬a.id = m.id := fun he =>
        hids.1 (he ▸ List.mem_map.mpr ⟨m, hmem, rfl⟩)
      simp only [update_one, if_neg hne, delete_one, if_neg hne, List.mem_cons] at hx
      rcases hx with hx | hx
      · exact hx ▸ ha
      · exact ih m ⟨hids.2, hcodes.2⟩ hfind' x hx

/-- A lookup over an appended fresh document: if nothing in the old store
carries the code and the new document does, the lookup returns it. -/
theorem get_document_append (store : List Meeting) (m : Meeting) (code : String)
    (h : ∀ x ∈ store, x.invite_code ≠ code) (hm : m.invite_code = code) :
    get_document (store ++ [m]) code = some m := by
  unfold get_document
  rw [List.find?_append]
  have h1 : store.find? (fun x => x.invite_code == code) = none :=
    get_document_eq_none store code h
  rw [h1, Option.none_or]
  exact List.find?_cons_of_pos _ (by simpa using hm)

/-- Updating one document preserves the store's length. -/
theorem update_one_length (store : List Meeting) (i : Nat) (f : Meeting → Meeting) :
    (update_one store i f).length = store.length := by
  induction store with
  | nil => rfl
  | cons a rest ih =>
    by_cases h : a.id = i <;> simp [update_one, h, ih]

/-- Position by position, an updated store holds the old document or its
rewrite. -/
theorem update_one_getq (store : List Meeting) (i : Nat) (f : Meeting → Meeting)
    (j : Nat) :
    (update_one store i f).get? j = store.get? j ∨
    (update_one store i f).get? j = (store.get? j).map f := by
  induction store generalizing j with
  | nil => left; rfl
  | cons a rest ih =>
    by_cases h : a.id = i
    · cases j with
      | zero => right; simp [update_one, h]
      | succ n => left; simp [update_one, h]
    · cases j with
      | zero => left; simp [update_one, h]
      | succ n =>
        rcases ih n with h1 | h1
        · left; simpa [update_one, h] using h1
        · right; simpa [update_one, h] using h1

/-- C1: the join endpoint checks its error conditions in order — 404 when no
meeting matches the invite code, else 400 when the match is not `active`, else
410 when it is expired, and only otherwise does it write the participant. -/
theorem C1_join_error_order (store : List Meeting) (email code : String) (now : Int) :
    (get_document store code = none →
      join_meeting store email code now = .error (404, "Invite not found")) ∧
    (∀ m : Meeting, get_document store code = some m → m.status ≠ "active" →
      join_meeting store email code now = .error (400, "Meeting not active")) ∧
    (∀ m : Meeting, get_document store code = some m → m.status = "active" →
      expired m.expires_at now = true →
      join_meeting store email code now = .error (410, "Invite expired")) ∧
    (∀ m : Meeting, get_document store code = some m → m.status = "active" →
      expired m.expires_at now = false →
      join_meeting store email code now =
        .ok (update_one store m.id
              (fun x => { x with participants := addParticipant m.participants email,
                                 updated_at := now }),
            m.id)) := by
  refine ⟨fun h => ?_, fun m h hst => ?_, fun m h hst hexp => ?_, fun m h hst hexp => ?_⟩
  · unfold join_meeting; rw [h]
  · unfold join_meeting; rw [h]; simp [hst]
  · unfold join_meeting; rw [h]; simp [hst, hexp]
  · unfold join_meeting; rw [h]; simp [hst, hexp]

/-- C1 witness: joining the empty store yields the 404 branch. -/
theorem C1_witness :
    join_meeting [] "b@x.com" "c0de" 0 = .error (404, "Invite not found") :=
  (C1_join_error_order [] "b@x.com" "c0de" 0).1 rfl

/-- C2: create-meeting appends exactly one record, whose expiry is the creation
time plus `ttl_minutes`, whose invite code is the freshly generated one, whose
status is `active` and whose participant list is empty; the response holds
exactly the new record's id, invite code and expiry timestamp. -/
theorem C2_create_meeting (store : List Meeting) (host : String) (title : Option String)
    (ttl now : Int) (newId : Nat) (newCode : String) :
    ∃ m : Meeting,
      (create_meeting store host title ttl now newId newCode).1 = store ++ [m] ∧
      m.id = newId ∧ m.invite_code = newCode ∧ m.expires_at = some (now + ttl) ∧
      m.status = "active" ∧ m.participants = [] ∧
      (create_meeting store host title ttl now newId newCode).2 =
        { id := newId, invite_code := newCode, expires_at := now + ttl } :=
  ⟨_, rfl, rfl, rfl, rfl, rfl, rfl, rfl⟩

/-- C6: ending a meeting whose invite code matches nothing in the store — in
particular one already ended, hence deleted — returns 404; the exception is
raised before any write, so the store is untouched. -/
theorem C6_end_absent (store : List Meeting) (code : String) (now : Int)
    (habs : ∀ m ∈ store, m.invite_code ≠ code) :
    end_meeting store code now = .error (404, "Meeting not found") := by
  unfold end_meeting
  rw [get_document_eq_none store code habs]

/-- C6 witness: ending an unknown code on a concrete one-meeting store. -/
theorem C6_witness :
    end_meeting [{ id := 1, title := none, host_email := "h@x.com",
                   invite_code := "abc", expires_at := some 50, status := "active",
                   participants := [], created_at := 0, updated_at := 0 }] "zzz" 7 =
      .error (404, "Meeting not found") :=
  C6_end_absent _ "zzz" 7 (by decide)

/-- C7: joining with an invite code that matches no stored meeting returns 404,
whatever the statuses or expiry of the other meetings in the store. -/
theorem C7_join_absent (store : List Meeting) (email code : String) (now : Int)
    (habs : ∀ m ∈ store, m.invite_code ≠ code) :
    join_meeting store email code now = .error (404, "Invite not found") :=
  (C1_join_error_order store email code now).1 (get_document_eq_none store code habs)

/-- C7 witness: a store holding an ended and an expired meeting still yields
404 for an unknown code. -/
theorem C7_witness :
    join_meeting
      [{ id := 1, title := none, host_email := "h@x.com", invite_code := "abc",
         expires_at := some 50, status := "ended", participants := [],
         created_at := 0, updated_at := 0 },
       { id := 2, title := some "t", host_email := "g@x.com", invite_code := "def",
         expires_at := some 1, status := "active", participants := ["p@x.com"],
         created_at := 0, updated_at := 0 }] "b@x.com" "zzz" 99 =
      .error (404, "Invite not found") :=
  C7_join_absent _ "b@x.com" "zzz" 99 (by decide)

/-- C9: a stored meeting whose `expires_at` is absent/`None` skips the expiry
check: if it is active, a join succeeds at every time `now`, never 410. -/
theorem C9_no_expiry (store : List Meeting) (email code : String) (now : Int)
    (m : Meeting) (hfind : get_document store code = some m)
    (hst : m.status = "active") (hexp : m.expires_at = none) :
    ∃ s' : List Meeting, join_meeting store email code now = .ok (s', m.id) :=
  ⟨_, (C1_join_error_order store email code now).2.2.2 m hfind hst (by rw [hexp]; rfl)⟩

/-- C3: a second join with the same email and invite code succeeds and leaves
the meeting found by that code with exactly one participant entry for the
email (join is idempotent on the participant set). -/
theorem C3_join_idempotent (store : List Meeting) (email code : String) (now : Int)
    (hids : (store.map Meeting.id).Nodup) (s' : List Meeting) (i : Nat)
    (h1 : join_meeting store email code now = .ok (s', i)) :
    ∃ s'' : List Meeting, join_meeting s' email code now = .ok (s'', i) ∧
      ∀ m : Meeting, get_document s'' code = some m →
        m.participants.count email = 1 := by
  obtain ⟨m, hfind, hst, hexp, hi, hs'⟩ :=
    join_ok_shape store s' email code now i h1
  have hfind' : get_document s' code =
      some { m with participants := addParticipant m.participants email,
                    updated_at := now } := by
    rw [hs']
    exact get_document_update_one code
      (fun x => { x with participants := addParticipant m.participants email,
                         updated_at := now })
      (fun x => rfl) store m hids hfind
  have hids' : (s'.map Meeting.id).Nodup := by
    rw [hs', map_id_update_one m.id
      (fun x => { x with participants := addParticipant m.participants email,
                         updated_at := now })
      (fun x => rfl) store]
    exact hids
  have h2 := (C1_join_error_order s' email code now).2.2.2 _ hfind' hst hexp
  refine ⟨_, by rw [hi]; exact h2, ?_⟩
  intro m' hm'
  have h3 := get_document_update_one code
      (fun x => { x with
        participants := addParticipant (addParticipant m.participants email) email,
        updated_at := now })
      (fun x => rfl) s' _ hids' hfind'
  rw [h3] at hm'
  have hm'' := Option.some.inj hm'
  rw [← hm'']
  exact addParticipant_count (addParticipant m.participants email) email

/-- C3 witness: two joins on a concrete one-meeting store. -/
theorem C3_witness :
    ∃ s'' : List Meeting,
      join_meeting
        [{ id := 1, title := none, host_email := "h@x.com", invite_code := "abc",
           expires_at := some 50, status := "active", participants := ["b@x.com"],
           created_at := 0, updated_at := 3 }] "b@x.com" "abc" 3 = .ok (s'', 1) ∧
      ∀ m : Meeting, get_document s'' "abc" = some m →
        m.participants.count "b@x.com" = 1 :=
  C3_join_idempotent
    [{ id := 1, title := none, host_email := "h@x.com", invite_code := "abc",
       expires_at := some 50, status := "active", participants := [],
       created_at := 0, updated_at := 0 }] "b@x.com" "abc" 3 (by decide)
    [{ id := 1, title := none, host_email := "h@x.com", invite_code := "abc",
       expires_at := some 50, status := "active", participants := ["b@x.com"],
       created_at := 0, updated_at := 3 }] 1 rfl

/-- C5: once the end operation succeeds on an invite code (well-formed store:
unique ids, unique codes), the record is gone, so any later join with that
code returns 404 — the `ended` status is never observable. -/
theorem C5_end_then_join (store : List Meeting) (email code : String) (now t : Int)
    (hwf : StoreWF store) (s' : List Meeting)
    (h : end_meeting store code now = .ok s') :
    join_meeting s' email code t = .error (404, "Invite not found") := by
  obtain ⟨m, hfind, hs'⟩ := end_ok_shape store s' code now h
  apply C7_join_absent
  intro x hx
  rw [hs'] at hx
  exact end_removes_code code
    (fun y => { y with status := "ended", updated_at := now })
    (fun y => rfl) store m hwf hfind x hx

/-- C5 witness: ending a concrete one-meeting store, then joining. -/
theorem C5_witness :
    join_meeting [] "b@x.com" "abc" 9 = .error (404, "Invite not found") :=
  C5_end_then_join
    [{ id := 1, title := none, host_email := "h@x.com", invite_code := "abc",
       expires_at := some 50, status := "active", participants := [],
       created_at := 0, updated_at := 0 }] "b@x.com" "abc" 5 9 (by decide) [] rfl

/-- The stores reachable through the three mutating endpoints, starting from
an empty collection. -/
inductive Reachable : List Meeting → Prop
  | init : Reachable []
  | create (s : List Meeting) (host : String) (title : Option String)
      (ttl now : Int) (newId : Nat) (newCode : String) :
      Reachable s → Reachable (create_meeting s host title ttl now newId newCode).1
  | join (s s' : List Meeting) (email code : String) (now : Int) (i : Nat) :
      Reachable s → join_meeting s email code now = .ok (s', i) → Reachable s'
  | endm (s s' : List Meeting) (code : String) (now : Int) :
      Reachable s → end_meeting s code now = .ok s' → Reachable s'

/-- C8: in every reachable store, each meeting's participant list holds each
email at most once — create writes an empty list, join writes a deduplicated
set, end only flips status and deletes. -/
theorem C8_participants_nodup (s : List Meeting) (hr : Reachable s) :
    ∀ m ∈ s, m.participants.Nodup := by
  induction hr with
  | init => intro m hm; simp at hm
  | create s host title ttl now newId newCode _ ih =>
    intro m hm
    simp only [create_meeting, List.mem_append, List.mem_singleton] at hm
    rcases hm with hm | hm
    · exact ih m hm
    · rw [hm]; exact List.nodup_nil
  | join s s' email code now i _ hjoin ih =>
    intro m hm
    obtain ⟨mm, _, _, _, _, hs'⟩ := join_ok_shape s s' email code now i hjoin
    rw [hs'] at hm
    rcases mem_update_one _ _ _ m hm with h1 | ⟨y, hy, hxy⟩
    · exact ih m h1
    · rw [hxy]; exact List.nodup_dedup _
  | endm s s' code now _ hend ih =>
    intro m hm
    obtain ⟨mm, _, hs'⟩ := end_ok_shape s s' code now hend
    rw [hs'] at hm
    rcases mem_update_one _ _ _ m (mem_delete_one _ _ m hm) with h1 | ⟨y, hy, hxy⟩
    · exact ih m h1
    · rw [hxy]; exact ih y hy

/-- C8 witness: the invariant at the concrete meeting held by a reachable
store, after one create from the empty store. -/
theorem C8_witness :
    ({ id := 1, title := none, host_email := "h@x.com", invite_code := "abc",
       expires_at := some 120, status := "active", participants := [],
       created_at := 0, updated_at := 0 } : Meeting).participants.Nodup :=
  C8_participants_nodup _
    (Reachable.create [] "h@x.com" none 120 0 1 "abc" Reachable.init)
    { id := 1, title := none, host_email := "h@x.com", invite_code := "abc",
      expires_at := some 120, status := "active", participants := [],
      created_at := 0, updated_at := 0 } (by decide)

/-- C10: a successful join keeps the store's length and, at every position,
changes at most `participants` and `updated_at`; `title`, `host_email`,
`invite_code`, `expires_at`, `status`, `created_at` and the id are unchanged. -/
theorem C10_join_frame (store s' : List Meeting) (email code : String) (now : Int)
    (i : Nat) (h : join_meeting store email code now = .ok (s', i)) :
    s'.length = store.length ∧
    ∀ (j : Nat) (m m' : Meeting), store.get? j = some m → s'.get? j = some m' →
      m'.title = m.title ∧ m'.host_email = m.host_email ∧
      m'.invite_code = m.invite_code ∧ m'.expires_at = m.expires_at ∧
      m'.status = m.status ∧ m'.created_at = m.created_at ∧ m'.id = m.id := by
  obtain ⟨mm, _, _, _, _, hs'⟩ := join_ok_shape store s' email code now i h
  subst hs'
  refine ⟨update_one_length store mm.id _, ?_⟩
  intro j m m' hm hm'
  rcases update_one_getq store mm.id _ j with h1 | h1
  · rw [h1, hm] at hm'
    have h2 := Option.some.inj hm'
    subst h2
    exact ⟨rfl, rfl, rfl, rfl, rfl, rfl, rfl⟩
  · rw [h1, hm] at hm'
    have h2 := Option.some.inj hm'
    subst h2
    exact ⟨rfl, rfl, rfl, rfl, rfl, rfl, rfl⟩

/-- C10 witness: the frame condition at a concrete successful join. -/
theorem C10_witness :
    ([{ id := 1, title := none, host_email := "h@x.com", invite_code := "abc",
        expires_at := some 50, status := "active", participants := ["b@x.com"],
        created_at := 0, updated_at := 3 }] : List Meeting).length =
      ([{ id := 1, title := none, host_email := "h@x.com", invite_code := "abc",
          expires_at := some 50, status := "active", participants := [],
          created_at := 0, updated_at := 0 }] : List Meeting).length ∧
    ∀ (j : Nat) (m m' : Meeting),
      ([{ id := 1, title := none, host_email := "h@x.com", invite_code := "abc",
          expires_at := some 50, status := "active", participants := [],
          created_at := 0, updated_at := 0 }] : List Meeting).get? j = some m →
      ([{ id := 1, title := none, host_email := "h@x.com", invite_code := "abc",
          expires_at := some 50, status := "active", participants := ["b@x.com"],
          created_at := 0, updated_at := 3 }] : List Meeting).get? j = some m' →
      m'.title = m.title ∧ m'.host_email = m.host_email ∧
      m'.invite_code = m.invite_code ∧ m'.expires_at = m.expires_at ∧
      m'.status = m.status ∧ m'.created_at = m.created_at ∧ m'.id = m.id :=
  C10_join_frame
    [{ id := 1, title := none, host_email := "h@x.com", invite_code := "abc",
       expires_at := some 50, status := "active", participants := [],
       created_at := 0, updated_at := 0 }]
    [{ id := 1, title := none, host_email := "h@x.com", invite_code := "abc",
       expires_at := some 50, status := "active", participants := ["b@x.com"],
       created_at := 0, updated_at := 3 }] "b@x.com" "abc" 3 1 rfl

/-- C4 counterexample: with `ttl_minutes = 0`, `expires_at` equals the creation
time, but a join at exactly that time succeeds — the expiry test is a strict
`<`, so "at or after the creation time fails with 410" is false at equality. -/
theorem C4_counterexample :
    (create_meeting [] "a@x.com" none 0 100 1 "abc").2.expires_at = 100 ∧
    join_meeting (create_meeting [] "a@x.com" none 0 100 1 "abc").1
        "b@x.com" "abc" 100 =
      .ok ([{ id := 1, title := none, host_email := "a@x.com",
              invite_code := "abc", expires_at := some 100, status := "active",
              participants := ["b@x.com"], created_at := 100,
              updated_at := 100 }], 1) :=
  ⟨rfl, rfl⟩

/-- C4 amended: with `ttl_minutes = 0` the new record's expiry equals the
creation time, and any join attempt strictly after that time (with the fresh
code matching nothing older) fails with 410 "expired". -/
theorem C4_ttl_zero (store : List Meeting) (host : String) (title : Option String)
    (now : Int) (newId : Nat) (newCode : String) (email : String) (t : Int)
    (hfresh : ∀ m ∈ store, m.invite_code ≠ newCode) (ht : now < t) :
    (create_meeting store host title 0 now newId newCode).2.expires_at = now ∧
    join_meeting (create_meeting store host title 0 now newId newCode).1
        email newCode t = .error (410, "Invite expired") := by
  constructor
  · show now + 0 = now
    exact Int.add_zero now
  · have hfind : get_document (create_meeting store host title 0 now newId newCode).1
        newCode =
        some { id := newId, title := title, host_email := host,
               invite_code := newCode, expires_at := some (now + 0),
               status := "active", participants := [], created_at := now,
               updated_at := now } :=
      get_document_append store _ newCode hfresh rfl
    refine (C1_join_error_order _ email newCode t).2.2.1 _ hfind rfl ?_
    show expired (some (now + 0)) t = true
    simp only [expired, decide_eq_true_eq]
    omega

/-- C4 amended witness: creation at time 0 with zero TTL, join at time 1. -/
theorem C4_witness :
    (∀ m ∈ ([] : List Meeting), m.invite_code ≠ "abc") ∧ ((0 : Int) < 1) ∧
    ((create_meeting [] "a@x.com" none 0 0 1 "abc").2.expires_at = 0 ∧
     join_meeting (create_meeting [] "a@x.com" none 0 0 1 "abc").1
         "b@x.com" "abc" 1 = .error (410, "Invite expired")) :=
  ⟨by simp, by decide,
   C4_ttl_zero [] "a@x.com" none 0 1 "abc" "b@x.com" 1 (by simp) (by decide)⟩

/-- C9 witness: joining a concrete expiry-less active meeting at a late time. -/
theorem C9_witness :
    ∃ s' : List Meeting,
      join_meeting
        [{ id := 1, title := none, host_email := "h@x.com", invite_code := "abc",
           expires_at := none, status := "active", participants := [],
           created_at := 0, updated_at := 0 }] "b@x.com" "abc" 1000000 = .ok (s', 1) :=
  C9_no_expiry
    [{ id := 1, title := none, host_email := "h@x.com", invite_code := "abc",
       expires_at := none, status := "active", participants := [],
       created_at := 0, updated_at := 0 }] "b@x.com" "abc" 1000000
    { id := 1, title := none, host_email := "h@x.com", invite_code := "abc",
      expires_at := none, status := "active", participants := [],
      created_at := 0, updated_at := 0 } rfl rfl rfl

